import Mathlib

/-!
Verification of the WebscrapingScript repository (four site-specific
e-commerce extractors: Uniqlo `product_spider.py`, Nike `nike_spider.py`,
Marks & Spencer `MS_spider.py`, Westside `westside_spider.py`).

Python strings are modelled as lists of characters (`Str`), Python string
operations as executable functions on `Str`.  Each definition is a direct
translation of the corresponding lines of the source file; the relevant
file and line numbers are given in the doc comments.
-/

set_option maxRecDepth 4000

/-- Python strings are sequences of unicode code points. -/
abbrev Str := List Char

/-- Characters stripped by Python's str.strip(): space, tab, newline,
carriage return, vertical tab, form feed. -/
def pyIsSpace (c : Char) : Bool :=
  c = ' ' || c = '\t' || c = '\n' || c = '\r' || c = '\x0b' || c = '\x0c'

/-- Python str.strip(): drop leading and trailing whitespace. -/
def pyStrip (s : Str) : Str :=
  ((s.dropWhile pyIsSpace).reverse.dropWhile pyIsSpace).reverse

/-- Does the list start with the given pattern (character by character)? -/
def startsL : Str → Str → Bool
  | [], _ => true
  | _ :: _, [] => false
  | p :: ps, c :: cs => p = c && startsL ps cs

/-- Python `pat in s`: does `pat` occur as a contiguous substring of `s`? -/
def containsL (pat s : Str) : Bool :=
  s.tails.any (startsL pat)

/-- Case-insensitive version of `startsL` (models re.IGNORECASE). -/
def startsCI (pat s : Str) : Bool :=
  startsL (pat.map Char.toLower) (s.map Char.toLower)

/-- Case-insensitive substring occurrence. -/
def containsCI (pat s : Str) : Bool :=
  s.tails.any (startsCI pat)

/-- Python s.split(sep)[0] for a single-character separator, i.e. the
part of the string before the first occurrence of the character. -/
def takeUntilChar (c : Char) (s : Str) : Str :=
  s.takeWhile (· ≠ c)

/-- Recursion core of `splitOnSub`, structurally recursive on a fuel
bound (the fuel is always at least the length of the string, so the
middle branch is never reached from `splitOnSub`). -/
def splitOnSubAux (pat : Str) : Nat → Str → Str → List Str
  | _, [], acc => [acc.reverse]
  | 0, s, acc => [acc.reverse ++ s]
  | fuel + 1, c :: rest, acc =>
    if pat ≠ [] ∧ startsL pat (c :: rest) then
      acc.reverse :: splitOnSubAux pat fuel ((c :: rest).drop pat.length) []
    else
      splitOnSubAux pat fuel rest (c :: acc)

/-- Python s.split(sep) (sep non-empty): list of the parts of `s`
between consecutive occurrences of `sep`. -/
def splitOnSub (pat s : Str) : List Str :=
  splitOnSubAux pat s.length s []

/-- Remove every occurrence of a single character (Python
s.replace(c, '') for a one-character pattern). -/
def removeChar (c : Char) (s : Str) : Str :=
  s.filter (· ≠ c)

/-- Recursion core of `removeSub`, fuel-bounded. -/
def removeSubAux (pat : Str) : Nat → Str → Str
  | _, [] => []
  | 0, s => s
  | fuel + 1, c :: rest =>
    if pat ≠ [] ∧ startsL pat (c :: rest) then
      removeSubAux pat fuel ((c :: rest).drop pat.length)
    else
      c :: removeSubAux pat fuel rest

/-- Python s.replace(pat, '') for a non-empty multi-character pattern:
delete the non-overlapping occurrences, scanning left to right. -/
def removeSub (pat s : Str) : Str :=
  removeSubAux pat s.length s

/-- The rupee sign U+20B9, written `"₹"` in MS_spider.py and
westside_spider.py. -/
def rupee : Char := '₹'

/-- The three-character mojibake sequence that nike_spider.py line 393
actually removes (the UTF-8 bytes of the rupee sign mis-decoded as
Latin-1): U+00E2, U+201A, U+00B9. -/
def nikeMojibakeRupee : Str := ['â', '‚', '¹']

/-! ### Price normalization, per spider -/

/-- Uniqlo price handling, product_spider.py line 352: the selected text
is only stripped (`product_price.strip()`); no currency symbol, label or
comma is removed. -/
def uniqloCleanPrice (s : Str) : Str :=
  pyStrip s

/-- Drop the characters matched by the regex `\s*:?\s*` (greedy run of
whitespace, an optional colon, whitespace), used after Nike's leading
"MRP" label. -/
def dropSpacesColonSpaces (s : Str) : Str :=
  let s := s.dropWhile pyIsSpace
  let s := match s with
    | ':' :: t => t
    | t => t
  s.dropWhile pyIsSpace

/-- Nike price cleanup, nike_spider.py lines 387-395:
strip; if "MRP" occurs in the upper-cased price, delete a leading
(case-insensitive) "MRP" label via the anchored regex
`^MRP\s*:?\s*`; delete the mojibake sequence "â‚¹" and "INR"; strip;
finally delete every whitespace character (`re.sub(r'\s+', '', ...)`).
Note: no comma is ever removed, and the true rupee sign U+20B9 is not
removed either. -/
def nikeCleanPrice (s : Str) : Str :=
  let p := pyStrip s
  let p :=
    if containsL ['M', 'R', 'P'] (p.map Char.toUpper) then
      if startsCI ['M', 'R', 'P'] p then dropSpacesColonSpaces (p.drop 3) else p
    else p
  let p := removeSub nikeMojibakeRupee p
  let p := removeSub ['I', 'N', 'R'] p
  let p := pyStrip p
  p.filter (fun c => ¬ pyIsSpace c)

/-- The label alternatives of the M&S anchored regex
`^(MRP|Price)[\s:]*` (MS_spider.py line 259). -/
def msLabels : List Str := [['M', 'R', 'P'], ['P', 'r', 'i', 'c', 'e']]

/-- The label alternatives of the Westside anchored regex
`^(MRP|Price|Regular price)[\s:]*` (westside_spider.py line 288). -/
def westsideLabels : List Str :=
  [['M', 'R', 'P'], ['P', 'r', 'i', 'c', 'e'],
   "Regular price".data]

/-- Apply an anchored case-insensitive label regex
`^(L1|...|Ln)[\s:]*`: if the string starts with one of the labels
(alternatives tried in order), drop it together with the following run
of whitespace and colons. -/
def dropLabel (labels : List Str) (s : Str) : Str :=
  match labels.find? (fun l => startsCI l s) with
  | some l => (s.drop l.length).dropWhile (fun c => pyIsSpace c || c = ':')
  | none => s

/-- Recursion core of `removeSuffixTokens`, fuel-bounded. -/
def removeSuffixTokensAux : Nat → Str → Str
  | _, [] => []
  | 0, s => s
  | fuel + 1, c :: rest =>
    if startsCI "incl.".data (c :: rest) then
      removeSuffixTokensAux fuel (((c :: rest).drop 5).dropWhile (· ≠ '\n'))
    else if startsCI ['M', 'R', 'P'] (c :: rest) then
      removeSuffixTokensAux fuel (((c :: rest).drop 3).dropWhile (· ≠ '\n'))
    else
      c :: removeSuffixTokensAux fuel rest

/-- The global case-insensitive regex substitution
`re.sub(r'(incl\..*|MRP.*)', '', p)` of westside_spider.py line 289:
at each position where "incl." or "MRP" begins (case-insensitively),
the match extends to the end of the line (`.` does not match a
newline); the match is deleted and scanning resumes after it. -/
def removeSuffixTokens (s : Str) : Str :=
  removeSuffixTokensAux s.length s

/-- M&S price cleanup, MS_spider.py lines 253-261:
strip; if the rupee sign occurs, delete it and strip; delete a leading
case-insensitive "MRP" or "Price" label (`^(MRP|Price)[\s:]*`);
delete every comma.  (No trailing-suffix step and no final strip.) -/
def msCleanPrice (s : Str) : Str :=
  let p := pyStrip s
  let p := if rupee ∈ p then pyStrip (removeChar rupee p) else p
  let p := dropLabel msLabels p
  removeChar ',' p

/-- Westside price cleanup, westside_spider.py lines 282-291:
strip; if the rupee sign occurs, delete it and strip; delete a leading
case-insensitive "MRP", "Price" or "Regular price" label; delete
everything from a case-insensitive "incl." or "MRP" onwards
(`re.sub(r'(incl\..*|MRP.*)', '', p)`); delete every comma and strip. -/
def westsideCleanPrice (s : Str) : Str :=
  let p := pyStrip s
  let p := if rupee ∈ p then pyStrip (removeChar rupee p) else p
  let p := dropLabel westsideLabels p
  let p := removeSuffixTokens p
  pyStrip (removeChar ',' p)

/-! ### Truthiness, sets-as-lists, sorting -/

/-- Python truthiness of an optional string (None and "" are falsy). -/
def truthy : Option Str → Bool
  | none => false
  | some s => s ≠ []

/-- Python `a or b` on optional strings: the first truthy value, else
the second operand unchanged. -/
def pyOr (a b : Option Str) : Option Str :=
  if truthy a then a else b

/-- Add an element to a set modelled as a duplicate-free list
(Python set.add). -/
def insertOnce (acc : List Str) (x : Str) : List Str :=
  if x ∈ acc then acc else acc ++ [x]

/-- Python list(set(l)): deduplicate. -/
def dedup (l : List Str) : List Str :=
  l.foldl insertOnce []

/-- Python set union as lists (element sets coincide with the union). -/
def unionStrs (a b : List Str) : List Str :=
  b.foldl insertOnce a

/-- Lexicographic comparison of strings by code point, as used by
Python sorted() on str. -/
def lexLe : Str → Str → Bool
  | [], _ => true
  | _ :: _, [] => false
  | a :: s, b :: t => if a = b then lexLe s t else decide (a < b)

/-- Insert into a lexicographically sorted list. -/
def insertSorted (x : Str) : List Str → List Str
  | [] => [x]
  | y :: ys => if lexLe x y then x :: y :: ys else y :: insertSorted x ys

/-- Python sorted(list(s)) for a set of strings. -/
def sortStrs (l : List Str) : List Str :=
  l.foldr insertSorted []

/-! ### Character classes and regex building blocks -/

/-- The regex class `\w` (ASCII): letters, digits, underscore. -/
def wordChar (c : Char) : Bool :=
  c.isAlphanum || c = '_'

/-- The regex class `[\w-]`. -/
def wordDash (c : Char) : Bool :=
  wordChar c || c = '-'

/-- The regex class `[A-Z0-9]`. -/
def capAlnum (c : Char) : Bool :=
  c.isUpper || c.isDigit

/-- Does the list end with the given pattern? -/
def endsL (suf s : Str) : Bool :=
  startsL suf.reverse s.reverse

/-- Python s.split(sep)[-1] for a one-character separator: the part
after the last occurrence of the character. -/
def lastSeg (sep : Char) (s : Str) : Str :=
  (s.reverse.takeWhile (· ≠ sep)).reverse

/-! ### Seed-discovery URL patterns (one per site) -/

/-- Match of the Uniqlo product regex `/products/E\d{6}-\d{3}`
(product_spider.py line 156) at the head of the string. -/
def uniqloPatHere (t : Str) : Bool :=
  startsL "/products/E".data t &&
  ((t.drop 11).take 6).length == 6 && ((t.drop 11).take 6).all Char.isDigit &&
  startsL ['-'] (t.drop 17) &&
  ((t.drop 18).take 3).length == 3 && ((t.drop 18).take 3).all Char.isDigit

/-- re.search of the Uniqlo product URL pattern. -/
def uniqloProductPat (s : Str) : Bool :=
  s.tails.any uniqloPatHere

/-- Match of `[\w-]+-[A-Z0-9]+` anywhere at the head of the string
(the tail of Nike's product regex). -/
def nikeTailMatch (u : Str) : Bool :=
  (List.range (u.length + 1)).any (fun j =>
    decide (1 ≤ j) && ((u.take j).all wordDash) &&
    (match u.drop j with
     | '-' :: d :: _ => capAlnum d
     | _ => false))

/-- re.search of the Nike product regex `/in/t/[\w-]+-[A-Z0-9]+`
(nike_spider.py line 218). -/
def nikeProductPat (s : Str) : Bool :=
  s.tails.any (fun t => startsL "/in/t/".data t && nikeTailMatch (t.drop 6))

/-- Match of the M&S product regex `/p/P\w+\.html(?:\?.*)?`
(MS_spider.py line 114) at the head of the string; the optional query
group does not affect whether a match exists. -/
def msPatHere (t : Str) : Bool :=
  startsL "/p/P".data t &&
  decide (1 ≤ ((t.drop 4).takeWhile wordChar).length) &&
  startsL ".html".data ((t.drop 4).dropWhile wordChar)

/-- re.search of the M&S product URL pattern. -/
def msProductPat (s : Str) : Bool :=
  s.tails.any msPatHere

/-- Match of the Westside product regex `/products/[\w-]+-\d+$`
(westside_spider.py line 135) at the head of the string; the match
must extend to the end of the string. -/
def westsidePatHere (t : Str) : Bool :=
  startsL "/products/".data t &&
  (let u := t.drop 10
   (List.range (u.length + 1)).any (fun k =>
     decide (1 ≤ k) && ((u.take k).all wordDash) &&
     (match u.drop k with
      | '-' :: d => !d.isEmpty && d.all Char.isDigit
      | _ => false)))

/-- re.search of the Westside product URL pattern. -/
def westsideProductPat (s : Str) : Bool :=
  s.tails.any westsidePatHere

/-- re.search(r'/p/(P\w+)\.html', url) capture group at the head of
the string (MS_spider.py line 149): the group is "P" followed by the
maximal run of word characters, and ".html" must follow the run. -/
def msPidHere (t : Str) : Option Str :=
  if startsL "/p/P".data t then
    let u := t.drop 3
    let w := u.takeWhile wordChar
    if decide (2 ≤ w.length) && startsL ".html".data (u.dropWhile wordChar) then
      some w
    else none
  else none

/-- Leftmost capture of the M&S product-id regex over the whole
string, none when there is no match. -/
def msSearchPid : Str → Option Str
  | [] => none
  | c :: rest =>
    match msPidHere (c :: rest) with
    | some w => some w
    | none => msSearchPid rest

/-! ### Image pipelines -/

/-- Uniqlo high-resolution rewrite (product_spider.py lines 378-379 and
387-388): drop the query string and append "?width=750". -/
def uniqloHighRes (img : Str) : Str :=
  takeUntilChar '?' img ++ "?width=750".data

/-- The Uniqlo colour-specific filename markers
f"goods_{color_code}_{base_product_id}" and
f"ingoods_{color_code}_{base_product_id}"
(product_spider.py lines 369-372). -/
def uniqloColorPats (colorCode baseId : Str) : List Str :=
  ["goods_".data ++ colorCode ++ '_' :: baseId,
   "ingoods_".data ++ colorCode ++ '_' :: baseId]

/-- Uniqlo image resolution (product_spider.py lines 356-391): when a
colour code is truthy, first collect images whose URL contains one of
the colour markers; if that set is empty, collect every main image;
each kept URL is query-stripped and suffixed with "?width=750"; the
result is the sorted deduplicated list.  `imgs` is the concatenation
of the four main-image selector results. -/
def uniqloImageUrls (colorCode : Option Str) (baseId : Str) (imgs : List Str) :
    List Str :=
  let colorStep :=
    if truthy colorCode then
      let cc := colorCode.getD []
      imgs.foldl (fun acc img =>
        if img ≠ [] && (uniqloColorPats cc baseId).any (fun p => containsL p img)
        then insertOnce acc (uniqloHighRes img) else acc) []
    else []
  let collected :=
    if colorStep = [] then
      imgs.foldl (fun acc img =>
        if img ≠ [] then insertOnce acc (uniqloHighRes img) else acc) []
    else colorStep
  sortStrs collected

/-- Nike per-image filter (nike_spider.py line 498):
`img and ('nike.com' in img or img.startswith('//'))`. -/
def nikeImageOk (img : Str) : Bool :=
  img ≠ [] && (containsL "nike.com".data img || startsL "//".data img)

/-- Nike URL normalization (nike_spider.py lines 500-502): query
stripped; protocol-relative URLs get "https:", bare paths get
"https://static.nike.com". -/
def nikeProtoFix (b : Str) : Str :=
  if startsL "http".data b then b
  else if startsL "//".data b then "https:".data ++ b
  else "https://static.nike.com".data ++ b

/-- Nike high-resolution rewrite (nike_spider.py lines 500-504). -/
def nikeTransform (img : Str) : Str :=
  nikeProtoFix (takeUntilChar '?' img) ++ "?width=1728&height=1728".data

/-- Nike image post-processing (nike_spider.py lines 493-508): dedup
and drop falsy entries, filter by host, rewrite to high resolution,
dedup again and sort.  `all_images` is the accumulated list from the
three collection strategies. -/
def nikeProcessImages (all_images : List Str) : List Str :=
  let all := dedup (all_images.filter (· ≠ []))
  sortStrs (all.foldl (fun acc img =>
    if nikeImageOk img then insertOnce acc (nikeTransform img) else acc) [])

/-- M&S asset-host allowlist check (MS_spider.py line 369). -/
def msHostOk (img : Str) : Bool :=
  containsL "digitalcontent.marksandspencer".data img ||
  containsL "assets.digitalcontent".data img

/-- M&S URL normalization (MS_spider.py lines 371-372). -/
def msProtoFix (img : Str) : Str :=
  if startsL "http".data img then img
  else if startsL "//".data img then "https:".data ++ img
  else "https://assets.digitalcontent.marksandspencer.app".data ++ img

/-- M&S junk filter (MS_spider.py line 374): not a bare sizing stub
and a plausibly long final path segment. -/
def msJunkOk (img : Str) : Bool :=
  !endsL "/w_1008".data img && !endsL "/w_600".data img &&
  decide (10 < (lastSeg '/' img).length)

/-- One M&S main-image candidate (MS_spider.py lines 366-375, also
lines 379-388): host filter, protocol fix, junk filter, set add. -/
def msAddMain (acc : List Str) (img : Str) : List Str :=
  if img ≠ [] && msHostOk img then
    let fixed := msProtoFix img
    if msJunkOk fixed then insertOnce acc fixed else acc
  else acc

/-- One M&S srcset attribute (MS_spider.py lines 391-402): split on
commas, take the URL part of each entry, host and junk filter (no
protocol fix in this branch). -/
def msSrcsetStep (acc : List Str) (srcset : Str) : List Str :=
  if srcset ≠ [] && msHostOk srcset then
    (splitOnSub [','] srcset).foldl (fun a entry =>
      let url := takeUntilChar ' ' (pyStrip entry)
      if url ≠ [] && msHostOk url && msJunkOk url then insertOnce a url else a)
      acc
  else acc

/-- Does the regex `_([A-Z0-9]{1,3})_X_` match at the head of the
string with a group of exactly `k` characters? -/
def msColorTry (k : Nat) (t : Str) : Bool :=
  startsL ['_'] t &&
  ((t.drop 1).take k).length == k && ((t.drop 1).take k).all capAlnum &&
  startsL "_X_".data (t.drop (1 + k))

/-- Recursion core of `msColorSub`, fuel-bounded. -/
def msColorSubAux (cc : Str) : Nat → Str → Str
  | _, [] => []
  | 0, s => s
  | fuel + 1, c :: rest =>
    if msColorTry 3 (c :: rest) then
      ('_' :: cc ++ "_X_".data) ++ msColorSubAux cc fuel ((c :: rest).drop 7)
    else if msColorTry 2 (c :: rest) then
      ('_' :: cc ++ "_X_".data) ++ msColorSubAux cc fuel ((c :: rest).drop 6)
    else if msColorTry 1 (c :: rest) then
      ('_' :: cc ++ "_X_".data) ++ msColorSubAux cc fuel ((c :: rest).drop 5)
    else
      c :: msColorSubAux cc fuel rest

/-- The global substitution
re.sub(r'_([A-Z0-9]{1,3})_X_', f'_{color_code}_X_', img_url)
(MS_spider.py line 419): the group is greedy, scanning resumes after
each replaced match. -/
def msColorSub (cc s : Str) : Str :=
  msColorSubAux cc s.length s

/-- M&S image resolution (MS_spider.py lines 341-438): high-res
selectors, fallback selectors when empty, srcset parsing, then colour
partitioning and the union policy, ending in a sorted list. -/
def msExtractVariantImages (colorCode : Option Str)
    (highRes fallbackImgs srcsets : List Str) : List Str :=
  let all := highRes.foldl msAddMain []
  let all := if all = [] then fallbackImgs.foldl msAddMain [] else all
  let all := srcsets.foldl msSrcsetStep all
  if truthy colorCode then
    let cc := colorCode.getD []
    let part := all.foldl (fun (p : List Str × List Str) img =>
      if containsL ('_' :: cc ++ ['_']) img || containsL ('_' :: cc ++ ['.']) img
      then (insertOnce p.1 img, p.2)
      else
        let modified := msColorSub cc img
        if modified ≠ img then (insertOnce p.1 modified, p.2)
        else (p.1, insertOnce p.2 img)) ([], [])
    if part.1 ≠ [] then sortStrs (unionStrs part.1 part.2) else sortStrs all
  else sortStrs all

/-- Westside asset-host check (westside_spider.py line 351). -/
def wsHostOk (img : Str) : Bool :=
  containsL "cdn.shopify.com".data img || containsL "westside.com".data img

/-- Westside URL normalization (westside_spider.py lines 352-356). -/
def wsProtoFix (img : Str) : Str :=
  if startsL "//".data img then "https:".data ++ img
  else if !(startsL "http://".data img || startsL "https://".data img) then
    "https://".data ++ img
  else img

/-- The fixed Westside high-resolution query suffix
(westside_spider.py lines 368, 387, 394). -/
def wsSuffix : Str := "?v=1&width=1200".data

/-- Match of the swatch-filename regex `\d{3}_\d+_\d+copy`
(westside_spider.py line 366) at the head of the string. -/
def swatchHere (t : Str) : Bool :=
  ((t.take 3).length == 3 && (t.take 3).all Char.isDigit) &&
  startsL ['_'] (t.drop 3) &&
  (let u := t.drop 4
   (List.range (u.length + 1)).any (fun j =>
     decide (1 ≤ j) && ((u.take j).all Char.isDigit) &&
     (match u.drop j with
      | '_' :: v => (List.range (v.length + 1)).any (fun k =>
          decide (1 ≤ k) && ((v.take k).all Char.isDigit) &&
          startsL "copy".data (v.drop k))
      | _ => false)))

/-- re.search of the Westside swatch-filename regex. -/
def swatchPat (s : Str) : Bool :=
  s.tails.any swatchHere

/-- Westside main-gallery pass (westside_spider.py lines 342-369):
gallery img src plus fancybox hrefs, host filter, protocol fix, query
strip, swatch filter, "?v=1&width=1200" suffix. -/
def westsideGalleryPass (galleryImgs fancyboxImgs : List Str) : List Str :=
  (galleryImgs ++ fancyboxImgs).foldl (fun acc img =>
    if img ≠ [] && wsHostOk img then
      let fixed := wsProtoFix img
      let base := takeUntilChar '?' fixed
      if !swatchPat base then insertOnce acc (base ++ wsSuffix) else acc
    else acc) []

/-- Westside JSON-LD fallback pass (westside_spider.py lines 372-396):
each image URL from the structured data gets a protocol fix and the
suffix appended; the original query string is NOT stripped and no
swatch filter is applied. -/
def westsideJsonPass (jsonImgs : List Str) : List Str :=
  jsonImgs.foldl (fun acc img =>
    if containsL "cdn.shopify.com".data img then
      insertOnce acc (wsProtoFix img ++ wsSuffix)
    else acc) []

/-- Westside image resolution (westside_spider.py lines 337-399): the
gallery pass, falling back to JSON-LD when it is empty, sorted. -/
def westsideImageUrls (galleryImgs fancyboxImgs jsonImgs : List Str) : List Str :=
  let g := westsideGalleryPass galleryImgs fancyboxImgs
  sortStrs (if g = [] then westsideJsonPass jsonImgs else g)

/-! ### The output record (items.py, class ProductItem) -/

/-- The uniform output record (items.py).  Fields that Python may set
to None are optional. -/
structure ProductRecord where
  name : Option Str
  product_id : Str
  url : Str
  price : Option Str
  color_name : Option Str
  color_code : Option Str
  image_urls : List Str
  image_count : Nat
  image_url : Option Str
deriving DecidableEq, Repr

/-- Python str() of an optional string, as interpolated by an f-string
(None prints as "None"). -/
def pyStrOpt : Option Str → Str
  | none => "None".data
  | some s => s

/-! ### Uniqlo flow (product_spider.py) -/

/-- One colour chip (a `div.fr-chip-wrapper-er` node): whether it has a
`label.fr-chip-label.color` child, its aria-label, its radio value. -/
structure UniqloChip where
  isColor : Bool
  ariaLabel : Option Str
  radioValue : Option Str
deriving DecidableEq, Repr

/-- The selector results of a Uniqlo product page that
parse_product / parse_product_variant read. -/
structure UniqloPage where
  url : Str
  chips : List UniqloChip
  title : Option Str
  priceLimited : Option Str
  priceDualOriginal : Option Str
  priceOriginal : Option Str
  mainImages : List Str
deriving DecidableEq, Repr

/-- The ValueError message raised at product_spider.py line 346. -/
def uniqloMissingMsg : Str :=
  "Missing required fields: product_name or product_price".data

/-- parse_product_variant (product_spider.py lines 309-408): returns
the emitted items and the (error-message, variant-id) pairs appended
to failed_products. -/
def uniqloParseVariant (variant_id : Str) (color_name : Option Str)
    (page : UniqloPage) : List ProductRecord × List (Str × Str) :=
  let color_code : Option Str :=
    if variant_id ≠ [] then some ((splitOnSub "-COL".data variant_id).getLastD [])
    else none
  let base_product_id : Option Str :=
    if variant_id ≠ [] then some ((splitOnSub "-COL".data variant_id).headD [])
    else none
  let product_name := page.title
  let product_price :=
    pyOr page.priceLimited (pyOr page.priceDualOriginal page.priceOriginal)
  if truthy product_name && truthy product_price then
    let imgs := uniqloImageUrls color_code (pyStrOpt base_product_id) page.mainImages
    let item : ProductRecord :=
      { name := some (if truthy color_name then
            pyStrip (product_name.getD []) ++ " - ".data ++ color_name.getD []
          else pyStrip (product_name.getD []))
        product_id := variant_id
        url := page.url
        price := some (uniqloCleanPrice (product_price.getD []))
        color_name := color_name
        color_code := color_code
        image_urls := imgs
        image_count := imgs.length
        image_url := imgs.head? }
    ([item], [])
  else
    ([], [(uniqloMissingMsg, variant_id)])

/-- A request dispatched by Uniqlo's parse_product for one colour
variant: url, variant id and colour name carried in the meta. -/
structure UniqloVariantReq where
  url : Str
  variant_id : Str
  color_name : Option Str
deriving DecidableEq, Repr

/-- product_spider.py lines 254-257: base_url = url.split('?')[0];
base_product_id = base_url.split('/products/')[1] (IndexError when the
separator is absent, giving none). -/
def uniqloExtractPidMulti (url : Str) : Option Str :=
  (splitOnSub "/products/".data (takeUntilChar '?' url)).get? 1

/-- product_spider.py lines 294 and 303:
response.url.split('/products/')[1].split('?')[0]. -/
def uniqloExtractPidSingle (url : Str) : Option Str :=
  ((splitOnSub "/products/".data url).get? 1).map (takeUntilChar '?')

/-- parse_product (product_spider.py lines 218-307): returns the
variant requests dispatched, the items emitted directly (single-product
handling), and the failed_products appends. -/
def uniqloParsePage (page : UniqloPage) :
    List UniqloVariantReq × List ProductRecord × List (Str × Str) :=
  if page.chips ≠ [] then
    let actual := page.chips.filter (·.isColor)
    if actual.length > 0 then
      match uniqloExtractPidMulti page.url with
      | none => ([], [], [])
      | some base_pid =>
        let base_url := takeUntilChar '?' page.url
        let reqs := actual.foldr (fun chip acc =>
          if truthy chip.radioValue then
            let code := chip.radioValue.getD []
            { url := base_url ++ "?colorCode=COL".data ++ code
              variant_id := base_pid ++ "-COL".data ++ code
              color_name := chip.ariaLabel } :: acc
          else acc) []
        (reqs, [], [])
    else
      match uniqloExtractPidSingle page.url with
      | none => ([], [], [])
      | some pid =>
        let out := uniqloParseVariant pid none page
        ([], out.1, out.2)
  else
    match uniqloExtractPidSingle page.url with
    | none => ([], [], [])
    | some pid =>
      let out := uniqloParseVariant pid none page
      ([], out.1, out.2)

/-! ### Nike record assembly (nike_spider.py) -/

/-- Item assembly of nike_spider.py lines 421-426 and 497-516, taking
the already-extracted scalar fields (name, colour, cleaned price) and
the accumulated raw image list. -/
def nikeVariantItem (variant_id : Str) (fullName : Str)
    (finalColorName finalColorCode : Option Str) (cleanedPrice : Str)
    (url : Str) (all_images : List Str) : ProductRecord :=
  let imgs := nikeProcessImages all_images
  { name := some (if truthy finalColorName then
        pyStrip fullName ++ " - ".data ++ finalColorName.getD []
      else pyStrip fullName)
    product_id := variant_id
    url := url
    price := some cleanedPrice
    color_name := finalColorName
    color_code := finalColorCode
    image_urls := imgs
    image_count := imgs.length
    image_url := imgs.head? }

/-! ### M&S flow (MS_spider.py) -/

/-- One colour swatch link: its data-swatchid and the
data-attr-value of its swatch circle. -/
structure MSSwatch where
  swatchId : Option Str
  dataAttrValue : Option Str
deriving DecidableEq, Repr

/-- The selector results of an M&S product page.  `nameSels` and
`priceSels` are the results of the name and price fallback selectors
in source order; `regexPrice` is the result of the full-text regex
fallback re.search(r'₹[\d,]+(?:\.\d{2})?', response.text). -/
structure MSPage where
  url : Str
  swatches : List MSSwatch
  altSwatches : List MSSwatch
  nameSels : List (Option Str)
  priceSels : List (Option Str)
  regexPrice : Option Str
  highResImgs : List Str
  fallbackImgs : List Str
  srcsets : List Str
deriving DecidableEq, Repr

/-- A Python or-chain `a or b or ...` over optional strings: the first
truthy value, or the final operand unchanged (none for an empty
chain). -/
def pyOrChain : List (Option Str) → Option Str
  | [] => none
  | [a] => a
  | a :: rest => pyOr a (pyOrChain rest)

/-- The dictionary returned by extract_common_product_data. -/
structure MSCommon where
  name : Option Str
  price : Option Str
  url : Str
deriving DecidableEq, Repr

/-- extract_common_product_data (MS_spider.py lines 205-270): name and
price fallback chains, regex price fallback, then cleanup of whichever
values are truthy. -/
def msCommonData (page : MSPage) : MSCommon :=
  let product_name := pyOrChain page.nameSels
  let product_price := pyOrChain page.priceSels
  let product_price :=
    if !truthy product_price then
      match page.regexPrice with
      | some r => some r
      | none => product_price
    else product_price
  let product_name :=
    if truthy product_name then product_name.map pyStrip else product_name
  let product_price :=
    if truthy product_price then product_price.map msCleanPrice else product_price
  { name := product_name, price := product_price, url := page.url }

/-- create_variant_item (MS_spider.py lines 272-319).  The
common-data dictionary always carries the keys name/price/url, so the
get() defaults are never used; when the name is None and a colour is
present, the f-string renders it as "None". -/
def msCreateVariantItem (page : MSPage) (common : MSCommon)
    (variant_id : Str) (color_name color_code : Option Str) : ProductRecord :=
  let nm : Option Str :=
    if truthy color_name then
      some (pyStrOpt common.name ++ " - ".data ++ color_name.getD [])
    else common.name
  let imgs := msExtractVariantImages color_code
    page.highResImgs page.fallbackImgs page.srcsets
  { name := nm
    product_id := variant_id
    url := common.url
    price := common.price
    color_name := color_name
    color_code := color_code
    image_urls := imgs
    image_count := imgs.length
    image_url := imgs.head? }

/-- parse_product (MS_spider.py lines 121-203): returns the emitted
items, the failed_products appends (none on any of these paths — the
only appends in MS_spider.py are in the unreachable except clause of
create_variant_item and in the request errback), and the ids added to
successful_products. -/
def msParseProduct (page : MSPage) :
    List ProductRecord × List (Str × Str) × List Str :=
  let color_options := if page.swatches ≠ [] then page.swatches else page.altSwatches
  let base_url := takeUntilChar '?' page.url
  match msSearchPid base_url with
  | none => ([], [], [])
  | some product_id =>
    if color_options ≠ [] then
      let common := msCommonData page
      let valid := color_options.foldr (fun sw acc =>
        if truthy sw.swatchId then
          let code := sw.swatchId.getD []
          (code, (pyOr sw.dataAttrValue (some code)).getD []) :: acc
        else acc) []
      if valid ≠ [] then
        let items := valid.map (fun p =>
          msCreateVariantItem page common (product_id ++ '-' :: p.1)
            (some p.2) (some p.1))
        (items, [], valid.map (fun p => product_id ++ '-' :: p.1))
      else
        ([msCreateVariantItem page common product_id none none], [], [product_id])
    else
      let common := msCommonData page
      ([msCreateVariantItem page common product_id none none], [], [product_id])

/-! ### Westside record assembly (westside_spider.py) -/

/-- create_variant_item (westside_spider.py lines 302-417), taking the
common name/price/url and the image selector results. -/
def westsideCreateVariantItem (commonName commonPrice : Option Str)
    (url : Str) (variant_id : Str) (color_name color_code : Option Str)
    (galleryImgs fancyboxImgs jsonImgs : List Str) : ProductRecord :=
  let imgs := westsideImageUrls galleryImgs fancyboxImgs jsonImgs
  { name := commonName
    product_id := variant_id
    url := url
    price := commonPrice
    color_name := color_name
    color_code := color_code
    image_urls := imgs
    image_count := imgs.length
    image_url := imgs.head? }

/-! ### Seed discovery (the parse methods) -/

/-- A request produced during seed discovery: either a product page
request or (Uniqlo only) a category page request. -/
inductive SeedRequest where
  | productReq (url : Str)
  | categoryReq (url : Str)
deriving DecidableEq, Repr

/-- Uniqlo parse (product_spider.py lines 134-177): every sitemap URL
is requested; those matching the product pattern go to parse_product,
ALL OTHERS are requested as category pages (parse_category). -/
def uniqloSitemapParse (urls : List Str) : List SeedRequest :=
  urls.map (fun u =>
    if uniqloProductPat u then SeedRequest.productReq u
    else SeedRequest.categoryReq u)

/-- Nike parse (nike_spider.py lines 209-236): only URLs matching the
product pattern are requested; others produce nothing. -/
def nikeSitemapParse (urls : List Str) : List SeedRequest :=
  urls.foldr (fun u acc =>
    if nikeProductPat u then SeedRequest.productReq u :: acc else acc) []

/-- M&S parse (MS_spider.py lines 92-119): only URLs matching the
product pattern are requested. -/
def msSitemapParse (urls : List Str) : List SeedRequest :=
  urls.foldr (fun u acc =>
    if msProductPat u then SeedRequest.productReq u :: acc else acc) []

/-- Westside parse_product_sitemap (westside_spider.py lines 114-140):
only URLs matching the product pattern are requested. -/
def westsideSitemapParse (urls : List Str) : List SeedRequest :=
  urls.foldr (fun u acc =>
    if westsideProductPat u then SeedRequest.productReq u :: acc else acc) []

/-! ### The Nike carousel loop (nike_spider.py, click_through_carousel) -/

/-- One iteration of image collection (nike_spider.py lines 128-137):
every currently loaded src that is non-empty, non-blank and not a
data: URI is added to the accumulated set. -/
def nikeStepImages (collected : List Str) (dom : List Str) : List Str :=
  dom.foldl (fun acc src =>
    if src ≠ [] && pyStrip src ≠ [] && !startsL "data:".data src then
      insertOnce acc src
    else acc) collected

/-- The safety bound max_clicks = 35 (nike_spider.py line 120). -/
def maxClicks : Nat := 35

/-- The click loop (nike_spider.py lines 122-153), fuel-bounded by the
remaining clicks: at 0-based iteration `i` the DOM snapshot `snap i`
is merged into the accumulated set; the stability counter increments
when the accumulated count is unchanged and resets to 0 otherwise; the
loop breaks when the count exceeds 5 AND the counter reaches 3.
Returns the number of iterations executed. -/
def carouselGo (snap : Nat → List Str) : Nat → Nat → List Str → Nat → Nat
  | 0, i, _, _ => i
  | fuel + 1, i, collected, stable =>
    let merged := nikeStepImages collected (snap i)
    let stable' := if merged.length = collected.length then stable + 1 else 0
    if 5 < merged.length ∧ 3 ≤ stable' then i + 1
    else carouselGo snap fuel (i + 1) merged stable'

/-- Run the carousel loop from the initial state. -/
def carouselRun (snap : Nat → List Str) : Nat :=
  carouselGo snap maxClicks 0 [] 0

/-- The accumulated image set after `k` iterations of the loop. -/
def collectedAfter (snap : Nat → List Str) : Nat → List Str
  | 0 => []
  | k + 1 => nikeStepImages (collectedAfter snap k) (snap k)

/-- The stability counter after `k` iterations of the loop. -/
def stableAfter (snap : Nat → List Str) : Nat → Nat
  | 0 => 0
  | k + 1 =>
    if (collectedAfter snap (k + 1)).length = (collectedAfter snap k).length then
      stableAfter snap k + 1
    else 0

/-- Does the loop's break condition hold right after iteration `k`? -/
def breakAtB (snap : Nat → List Str) (k : Nat) : Bool :=
  decide (5 < (collectedAfter snap k).length ∧ 3 ≤ stableAfter snap k)

/-! ### Decidable claim properties and concrete inputs -/

/-- The image-field invariant of a record (P2 of the spec):
image_count is the length of image_urls and image_url is its first
element (none exactly when the list is empty, which is what
List.head? expresses). -/
def recordImageInvB (r : ProductRecord) : Bool :=
  (r.image_count == r.image_urls.length) &&
  (r.image_url == r.image_urls.head?) &&
  ((r.image_url == none) == r.image_urls.isEmpty)

/-- Does the URL consist of a query-free base followed by exactly the
given fixed suffix? -/
def queryStrippedWithSuffix (suf u : Str) : Bool :=
  endsL suf u && (u.take (u.length - suf.length)).all (· ≠ '?')

/-- A Uniqlo product page whose colour-picker container is present but
holds no chip with a `label.fr-chip-label.color` child (e.g. only a
size chip), with name and price extractable. -/
def uniqloNoColorPage : UniqloPage :=
  { url := "https://www.uniqlo.com/in/products/E473635-000".data
    chips := [{ isColor := false, ariaLabel := none, radioValue := none }]
    title := some "Crew Neck T-Shirt".data
    priceLimited := some "1490".data
    priceDualOriginal := none
    priceOriginal := none
    mainImages := [] }

/-- The record that uniqloParsePage emits for `uniqloNoColorPage`. -/
def uniqloNoColorRecord : ProductRecord :=
  { name := some "Crew Neck T-Shirt".data
    product_id := "E473635-000".data
    url := "https://www.uniqlo.com/in/products/E473635-000".data
    price := some "1490".data
    color_name := none
    color_code := some "E473635-000".data
    image_urls := []
    image_count := 0
    image_url := none }

/-- An M&S product page with a well-formed product URL on which every
name and price selector (and the regex fallback) comes up empty, and
with no colour swatches. -/
def msAllEmptyPage : MSPage :=
  { url := "https://www.marksandspencer.in/c/p/P22567531.html".data
    swatches := []
    altSwatches := []
    nameSels := [none, none, none, none]
    priceSels := [none, none, none, none, none, none, none]
    regexPrice := none
    highResImgs := []
    fallbackImgs := []
    srcsets := [] }

/-- The record msParseProduct emits for `msAllEmptyPage`: no failure is
recorded and the item carries None name and None price. -/
def msAllEmptyRecord : ProductRecord :=
  { name := none
    product_id := "P22567531".data
    url := "https://www.marksandspencer.in/c/p/P22567531.html".data
    price := none
    color_name := none
    color_code := none
    image_urls := []
    image_count := 0
    image_url := none }

/-- A Westside swatch image URL (filename matches the swatch pattern)
that also appears in the page's JSON-LD structured data. -/
def wsSwatchUrl : Str :=
  "//cdn.shopify.com/s/files/1/0266/files/301008799001_5_20copy.jpg".data

/-- A Westside JSON-LD image URL that carries a query string. -/
def wsQueryJsonUrl : Str :=
  "//cdn.shopify.com/s/files/1/0266/files/300912345001.jpg?alt=77".data

/-- Carousel witness snapshots: six images appear at the first
iteration, nothing new afterwards. -/
def carouselWitnessSnap (i : Nat) : List Str :=
  if i = 0 then
    ["a".data, "b".data, "c".data, "d".data, "e".data, "f".data]
  else ["a".data]

/-- A Uniqlo page whose extracted price text contains a
thousands-separator comma. -/
def uniqloCommaPage : UniqloPage :=
  { url := "https://www.uniqlo.com/in/products/E473635-000".data
    chips := []
    title := some "Crew Neck T-Shirt".data
    priceLimited := some " 1,290 ".data
    priceDualOriginal := none
    priceOriginal := none
    mainImages := [] }

/-! ## Lemmas -/

theorem mem_insertOnce {acc : List Str} {x u : Str} :
    u ∈ insertOnce acc x ↔ u ∈ acc ∨ u = x := by
  unfold insertOnce
  split
  · rename_i hx
    constructor
    · exact Or.inl
    · rintro (h | rfl)
      · exact h
      · exact hx
  · simp [List.mem_append]

theorem mem_insertSorted {x u : Str} :
    ∀ {l : List Str}, u ∈ insertSorted x l ↔ u = x ∨ u ∈ l := by
  intro l
  induction l with
  | nil => simp [insertSorted]
  | cons y ys ih =>
    simp only [insertSorted]
    split
    · simp only [List.mem_cons]
      try tauto
    · simp only [List.mem_cons, ih]
      try tauto

theorem mem_sortStrs {u : Str} : ∀ {l : List Str}, u ∈ sortStrs l ↔ u ∈ l := by
  intro l
  induction l with
  | nil => simp [sortStrs]
  | cons a t ih =>
    simp only [sortStrs, List.foldr_cons] at *
    rw [mem_insertSorted, ih, List.mem_cons]

theorem foldl_mem_preserve {β : Type} (step : List Str → β → List Str)
    (Q : Str → Prop)
    (hstep : ∀ acc x u, u ∈ step acc x → u ∈ acc ∨ Q u) :
    ∀ (l : List β) (acc : List Str), (∀ u ∈ acc, Q u) →
      ∀ u ∈ l.foldl step acc, Q u := by
  intro l
  induction l with
  | nil => intro acc hacc u hu; exact hacc u hu
  | cons x xs ih =>
    intro acc hacc u hu
    refine ih (step acc x) ?_ u hu
    intro v hv
    rcases hstep acc x v hv with h | h
    · exact hacc v h
    · exact h

theorem mem_pyStrip {u : Char} {s : Str} (h : u ∈ pyStrip s) : u ∈ s := by
  unfold pyStrip at h
  rw [List.mem_reverse] at h
  have h2 := (List.dropWhile_sublist _).subset h
  rw [List.mem_reverse] at h2
  exact (List.dropWhile_sublist _).subset h2

theorem mem_dropLabel {u : Char} {L : List Str} {s : Str}
    (h : u ∈ dropLabel L s) : u ∈ s := by
  unfold dropLabel at h
  split at h
  · exact (List.drop_sublist _ _).subset ((List.dropWhile_sublist _).subset h)
  · exact h

theorem mem_removeSuffixTokensAux {u : Char} :
    ∀ (fuel : Nat) (s : Str), u ∈ removeSuffixTokensAux fuel s → u ∈ s := by
  intro fuel
  induction fuel with
  | zero =>
    intro s h
    cases s with
    | nil => simp [removeSuffixTokensAux] at h
    | cons c rest => simpa [removeSuffixTokensAux] using h
  | succ f ih =>
    intro s h
    cases s with
    | nil => simp [removeSuffixTokensAux] at h
    | cons c rest =>
      simp only [removeSuffixTokensAux] at h
      split at h
      · exact (List.drop_sublist _ _).subset
          ((List.dropWhile_sublist _).subset (ih _ h))
      · split at h
        · exact (List.drop_sublist _ _).subset
            ((List.dropWhile_sublist _).subset (ih _ h))
        · rcases List.mem_cons.mp h with rfl | h2
          · exact List.mem_cons_self _ _
          · exact List.mem_cons_of_mem _ (ih _ h2)

theorem mem_removeSuffixTokens {u : Char} {s : Str}
    (h : u ∈ removeSuffixTokens s) : u ∈ s :=
  mem_removeSuffixTokensAux _ _ h

theorem noComma_msCleanPrice (s : Str) : ',' ∉ msCleanPrice s := by
  intro h
  simp only [msCleanPrice, removeChar] at h
  have := (List.mem_filter.mp h).2
  simp at this

theorem noRupee_msCleanPrice (s : Str) : rupee ∉ msCleanPrice s := by
  intro h
  simp only [msCleanPrice, removeChar] at h
  have h1 := (List.mem_filter.mp h).1
  have h2 := mem_dropLabel h1
  by_cases hr : rupee ∈ pyStrip s
  · rw [if_pos hr] at h2
    have h3 := mem_pyStrip h2
    have := (List.mem_filter.mp h3).2
    simp at this
  · rw [if_neg hr] at h2
    exact hr h2

theorem noComma_westsideCleanPrice (s : Str) : ',' ∉ westsideCleanPrice s := by
  intro h
  simp only [westsideCleanPrice, removeChar] at h
  have h1 := mem_pyStrip h
  have := (List.mem_filter.mp h1).2
  simp at this

theorem noRupee_westsideCleanPrice (s : Str) : rupee ∉ westsideCleanPrice s := by
  intro h
  simp only [westsideCleanPrice, removeChar] at h
  have h1 := mem_pyStrip h
  have h2 := (List.mem_filter.mp h1).1
  have h3 := mem_removeSuffixTokens h2
  have h4 := mem_dropLabel h3
  by_cases hr : rupee ∈ pyStrip s
  · rw [if_pos hr] at h4
    have h5 := mem_pyStrip h4
    have := (List.mem_filter.mp h5).2
    simp at this
  · rw [if_neg hr] at h4
    exact hr h4

theorem head_false_of_dropWhile_eq {p : Char → Bool} {a : Char} {t : Str}
    (h : (a :: t).dropWhile p = a :: t) : p a = false := by
  by_contra hpa
  rw [List.dropWhile_cons_of_pos (by simpa using hpa)] at h
  have := congrArg List.length h
  have hle := (show List.Sublist (t.dropWhile p) t from List.dropWhile_sublist p).length_le
  simp at this
  omega

theorem dropWhile_cons_false {p : Char → Bool} {a : Char} (t : Str)
    (ha : p a = false) : (a :: t).dropWhile p = a :: t :=
  List.dropWhile_cons_of_neg (by simp [ha])

theorem rtrim_of_ltrimmed {p : Char → Bool} :
    ∀ {y : Str}, y.dropWhile p = y →
      ((y.reverse.dropWhile p).reverse).dropWhile p = (y.reverse.dropWhile p).reverse := by
  intro y hy
  cases y with
  | nil => simp
  | cons a t =>
    have ha : p a = false := head_false_of_dropWhile_eq hy
    rw [List.reverse_cons, List.dropWhile_append]
    by_cases hw : (t.reverse.dropWhile p).isEmpty
    · simp only [hw, if_pos]
      rw [show List.dropWhile p [a] = [a] from dropWhile_cons_false [] ha]
      simpa using dropWhile_cons_false [] ha
    · simp only [hw, if_neg, Bool.false_eq_true, not_false_iff]
      rw [List.reverse_append]
      simp only [List.reverse_cons, List.reverse_nil, List.nil_append,
        List.singleton_append]
      exact dropWhile_cons_false _ ha

theorem pyStrip_ltrimmed (s : Str) : (pyStrip s).dropWhile pyIsSpace = pyStrip s := by
  unfold pyStrip
  exact rtrim_of_ltrimmed (List.dropWhile_idempotent _ _)

theorem pyStrip_idem (s : Str) : pyStrip (pyStrip s) = pyStrip s := by
  conv_lhs => rw [pyStrip]
  rw [pyStrip_ltrimmed]
  unfold pyStrip
  rw [List.reverse_reverse, List.dropWhile_idempotent]

theorem dropLabel_eq_self {L : List Str} {s : Str}
    (h : ∀ l ∈ L, startsCI l s = false) : dropLabel L s = s := by
  unfold dropLabel
  rw [List.find?_eq_none.mpr (fun x hx => by simp [h x hx])]

theorem containsCI_cons {pat : Str} {c : Char} {s : Str} :
    containsCI pat (c :: s) = (startsCI pat (c :: s) || containsCI pat s) := by
  simp [containsCI, List.tails_cons]

theorem startsCI_false_of_containsCI_false {pat s : Str}
    (h : containsCI pat s = false) : startsCI pat s = false := by
  cases s with
  | nil =>
    rw [containsCI] at h
    simpa [List.tails] using h
  | cons c t =>
    rw [containsCI_cons] at h
    exact (Bool.or_eq_false_iff.mp h).1

theorem containsCI_false_of_cons {pat : Str} {c : Char} {s : Str}
    (h : containsCI pat (c :: s) = false) : containsCI pat s = false := by
  rw [containsCI_cons] at h
  exact (Bool.or_eq_false_iff.mp h).2

theorem removeSuffixTokensAux_eq_self :
    ∀ (fuel : Nat) (s : Str), containsCI "incl.".data s = false →
      containsCI ['M', 'R', 'P'] s = false → removeSuffixTokensAux fuel s = s := by
  intro fuel
  induction fuel with
  | zero =>
    intro s _ _
    cases s <;> rfl
  | succ f ih =>
    intro s h1 h2
    cases s with
    | nil => rfl
    | cons c rest =>
      rw [removeSuffixTokensAux]
      rw [if_neg (by simp [startsCI_false_of_containsCI_false h1]),
        if_neg (by simp [startsCI_false_of_containsCI_false h2])]
      rw [ih rest (containsCI_false_of_cons h1) (containsCI_false_of_cons h2)]

theorem removeSuffixTokens_eq_self {s : Str}
    (h1 : containsCI "incl.".data s = false)
    (h2 : containsCI ['M', 'R', 'P'] s = false) : removeSuffixTokens s = s :=
  removeSuffixTokensAux_eq_self _ _ h1 h2

theorem removeChar_eq_self {c : Char} {s : Str} (h : c ∉ s) : removeChar c s = s :=
  List.filter_eq_self.mpr (fun a ha => by
    simp only [decide_eq_true_eq]
    rintro rfl
    exact h ha)

/-! ## Claim theorems -/

/-- C5: the price normalization algorithm (M&S and Westside versions,
the two extractors cited for the example) maps " MRP: 1,299.00" to
"1299.00": whitespace stripped, the leading label token removed, the
thousands-separator comma removed, the decimal digits preserved. -/
theorem price_example_mrp_1299 :
    msCleanPrice " MRP: 1,299.00".data = "1299.00".data ∧
    westsideCleanPrice " MRP: 1,299.00".data = "1299.00".data := by decide

/-- C2 counterexample: the claim "the price field contains no currency
symbol and no thousands-separator comma in all four extractors" fails.
The Uniqlo extractor emits a record whose price retains the comma
(its price handling is only a strip), and the Nike cleanup keeps both
the comma and the real rupee sign U+20B9 (it only removes a mojibake
sequence). -/
theorem price_comma_retained_counterexample :
    ((uniqloParseVariant "E473635-000".data none uniqloCommaPage).1.map
        ProductRecord.price) = [some "1,290".data] ∧
    ',' ∈ "1,290".data ∧
    nikeCleanPrice "MRP : ₹ 12,795.00".data = "₹12,795.00".data ∧
    ',' ∈ "₹12,795.00".data ∧ rupee ∈ "₹12,795.00".data := by decide

/-- C2 amended: the M&S and Westside price normalizers never leave a
comma or a rupee sign in their output; the Uniqlo and Nike extractors
do not remove thousands-separator commas (Uniqlo only strips
whitespace, and Nike additionally retains the real rupee sign). -/
theorem price_no_rupee_or_comma_amended :
    (∀ s : Str, ',' ∉ msCleanPrice s ∧ rupee ∉ msCleanPrice s) ∧
    (∀ s : Str, ',' ∉ westsideCleanPrice s ∧ rupee ∉ westsideCleanPrice s) ∧
    ',' ∈ uniqloCleanPrice " 1,290 ".data ∧
    ',' ∈ nikeCleanPrice "MRP : ₹ 12,795.00".data := by
  refine ⟨fun s => ⟨noComma_msCleanPrice s, noRupee_msCleanPrice s⟩,
    fun s => ⟨noComma_westsideCleanPrice s, noRupee_westsideCleanPrice s⟩,
    ?_, ?_⟩ <;> decide

/-- C4 counterexample: price normalization is NOT idempotent for every
input string.  On "PricePrice 5" one pass removes only the first
leading "Price" label, leaving "Price 5", and a second pass removes
the newly exposed label, giving "5" (both the Westside and the M&S
versions). -/
theorem normalize_price_not_idempotent :
    westsideCleanPrice (westsideCleanPrice "PricePrice 5".data) ≠
      westsideCleanPrice "PricePrice 5".data ∧
    msCleanPrice (msCleanPrice "PricePrice 5".data) ≠
      msCleanPrice "PricePrice 5".data := by decide

/-- C4 amended: the Westside price normalization is idempotent for
every input whose one-pass result does not begin (case-insensitively)
with one of the label tokens "Price" / "Regular price" and contains no
case-insensitive occurrence of "MRP" or "incl." (the output never
contains a comma or rupee sign, so those steps are already
inert on a second pass). -/
theorem normalize_price_idempotent_amended (x : Str)
    (h2 : startsCI "Price".data (westsideCleanPrice x) = false)
    (h3 : startsCI "Regular price".data (westsideCleanPrice x) = false)
    (h4 : containsCI "incl.".data (westsideCleanPrice x) = false)
    (h5 : containsCI ['M', 'R', 'P'] (westsideCleanPrice x) = false) :
    westsideCleanPrice (westsideCleanPrice x) = westsideCleanPrice x := by
  have hform : westsideCleanPrice x =
      pyStrip (removeChar ','
        (removeSuffixTokens (dropLabel westsideLabels
          (if rupee ∈ pyStrip x then pyStrip (removeChar rupee (pyStrip x))
           else pyStrip x)))) := rfl
  have hstr : pyStrip (westsideCleanPrice x) = westsideCleanPrice x := by
    conv_lhs => rw [hform]
    rw [pyStrip_idem]
    exact hform.symm
  have hlabels : ∀ l ∈ westsideLabels, startsCI l (westsideCleanPrice x) = false := by
    intro l hl
    simp only [westsideLabels, List.mem_cons, List.mem_singleton] at hl
    rcases hl with rfl | rfl | rfl | h
    · exact startsCI_false_of_containsCI_false h5
    · exact h2
    · exact h3
    · cases h
  calc westsideCleanPrice (westsideCleanPrice x)
      = pyStrip (removeChar ','
          (removeSuffixTokens (dropLabel westsideLabels
            (if rupee ∈ pyStrip (westsideCleanPrice x) then
              pyStrip (removeChar rupee (pyStrip (westsideCleanPrice x)))
             else pyStrip (westsideCleanPrice x))))) := rfl
    _ = westsideCleanPrice x := by
        rw [hstr, if_neg (noRupee_westsideCleanPrice x),
          dropLabel_eq_self hlabels, removeSuffixTokens_eq_self h4 h5,
          removeChar_eq_self (noComma_westsideCleanPrice x), hstr]

/-- C4 witness: the amended idempotence theorem applied to the spec's
own example input. -/
theorem normalize_price_idempotent_amended_witness :
    westsideCleanPrice (westsideCleanPrice " MRP: 1,299.00".data) =
      westsideCleanPrice " MRP: 1,299.00".data :=
  normalize_price_idempotent_amended " MRP: 1,299.00".data
    (by decide) (by decide) (by decide) (by decide)

theorem recordImageInvB_of (r : ProductRecord)
    (h1 : r.image_count = r.image_urls.length)
    (h2 : r.image_url = r.image_urls.head?) : recordImageInvB r = true := by
  unfold recordImageInvB
  rw [h1, h2]
  cases r.image_urls <;> simp

theorem recordImageInvB_msCreate (page : MSPage) (common : MSCommon)
    (vid : Str) (coln colc : Option Str) :
    recordImageInvB (msCreateVariantItem page common vid coln colc) = true :=
  recordImageInvB_of _ rfl rfl

/-- C1: for every record emitted by any of the four extractors,
image_count equals the length of image_urls, image_url is none exactly
when image_urls is empty, and otherwise image_url is its first element
(all three facts are packaged in `recordImageInvB`, whose middle
conjunct equates image_url with List.head? of image_urls). -/
theorem record_image_invariant_all_extractors :
    (∀ vid cn page,
      ((uniqloParseVariant vid cn page).1.all recordImageInvB) = true) ∧
    (∀ vid nm cn cc pr url imgs,
      recordImageInvB (nikeVariantItem vid nm cn cc pr url imgs) = true) ∧
    (∀ page, ((msParseProduct page).1.all recordImageInvB) = true) ∧
    (∀ cn pr url vid coln colc g f j,
      recordImageInvB (westsideCreateVariantItem cn pr url vid coln colc g f j)
        = true) := by
  refine ⟨?_, ?_, ?_, ?_⟩
  · intro vid cn page
    simp only [uniqloParseVariant]
    split
    · simp only [List.all_cons, List.all_nil, Bool.and_true]
      exact recordImageInvB_of _ rfl rfl
    · rfl
  · intro vid nm cn cc pr url imgs
    exact recordImageInvB_of _ rfl rfl
  · intro page
    simp only [msParseProduct]
    repeat' split
    all_goals dsimp only
    any_goals rfl
    all_goals
      rw [List.all_eq_true]
      intro r hr
      simp only [List.mem_singleton, List.mem_map] at hr
      first
      | (subst hr; exact recordImageInvB_msCreate _ _ _ _ _)
      | (obtain ⟨p, hp, rfl⟩ := hr; exact recordImageInvB_msCreate _ _ _ _ _)
  · intro cn pr url vid coln colc g f j
    exact recordImageInvB_of _ rfl rfl

theorem carouselGo_stall (snap : Nat → List Str) (c : List Str)
    (hc : 5 < c.length) :
    ∀ (fuel idx s : Nat), idx + fuel = 35 →
      (∀ k, k < 35 → idx ≤ k → nikeStepImages c (snap k) = c) →
      s < 3 → 3 - s ≤ fuel →
      carouselGo snap fuel idx c s = idx + (3 - s) := by
  intro fuel
  induction fuel with
  | zero => intro idx s h35 hstep hs hf; omega
  | succ f ih =>
    intro idx s h35 hstep hs hf
    have hidx : idx < 35 := by omega
    simp only [carouselGo]
    rw [hstep idx hidx (le_refl idx)]
    simp only [eq_self_iff_true, if_true]
    by_cases hs2 : s = 2
    · subst hs2
      rw [if_pos ⟨hc, by omega⟩]
    · rw [if_neg (fun h => absurd h.2 (by omega))]
      rw [ih (idx + 1) (s + 1) (by omega)
        (fun k hk h1 => hstep k hk (by omega)) (by omega) (by omega)]
      omega

theorem carouselGo_resume (snap : Nat → List Str) :
    ∀ j, j ≤ 35 → (∀ k, k ≤ j → 1 ≤ k → breakAtB snap k = false) →
      carouselRun snap =
        carouselGo snap (35 - j) j (collectedAfter snap j) (stableAfter snap j) := by
  intro j
  induction j with
  | zero => intro _ _; rfl
  | succ n ih =>
    intro hj hnob
    rw [ih (by omega) (fun k hk h1 => hnob k (by omega) h1)]
    have hn : 35 - n = (35 - (n + 1)) + 1 := by omega
    rw [hn]
    simp only [carouselGo]
    show (if 5 < (collectedAfter snap (n + 1)).length ∧
          3 ≤ stableAfter snap (n + 1) then n + 1
        else carouselGo snap (35 - (n + 1)) (n + 1)
          (collectedAfter snap (n + 1)) (stableAfter snap (n + 1))) =
      carouselGo snap (35 - (n + 1)) (n + 1)
        (collectedAfter snap (n + 1)) (stableAfter snap (n + 1))
    have hb := hnob (n + 1) (le_refl (n + 1)) (by omega)
    simp only [breakAtB] at hb
    rw [if_neg (of_decide_eq_false hb)]

/-- C3 counterexample: the claim as stated fails on two concrete
simulated reveal sequences.  (a) A sequence whose accumulated set is
stable at exactly 5 images from iteration 1 ("at least 5" holds, so
the claim predicts termination by iteration 1+3 = 4): the code's
condition is strictly `> 5`, so the loop never breaks and runs to the
35-click safety bound.  (b) A sequence whose accumulated set stops
growing after iteration 5 with 7 images: the loop stops at iteration
4 (an earlier 3-stable plateau at 6 > 5 images), i.e. strictly
earlier than the claimed iteration i+3 = 8. -/
theorem carousel_stop_counterexample :
    carouselRun (fun _ => ["a".data, "b".data, "c".data, "d".data, "e".data])
        = 35 ∧
    (35 : Nat) ≠ 1 + 3 ∧
    carouselRun (fun i =>
      if i < 4 then ["a".data, "b".data, "c".data, "d".data, "e".data, "f".data]
      else ["a".data, "b".data, "c".data, "d".data, "e".data, "f".data, "g".data])
        = 4 ∧
    (4 : Nat) ≠ 5 + 3 ∧ (4 : Nat) < 5 + 3 := by
  refine ⟨by decide, by decide, by decide, by decide, by decide⟩

/-- C3 amended: if the accumulated image set grows at iteration m+1,
never grows afterwards (within the 35-iteration safety bound), holds
MORE than 5 images at that point (the code's strict `> 5`), iteration
m+4 is within the safety bound, and no earlier iteration already
satisfied the stop condition (more than 5 images and a 3-iteration
stability streak), then the loop terminates exactly at iteration
m+4 = (m+1)+3 — by the claimed 3-iteration stability streak and never
earlier. -/
theorem carousel_stop_amended (snap : Nat → List Str) (m : Nat)
    (hgrow : (collectedAfter snap m).length < (collectedAfter snap (m + 1)).length)
    (hstop : ∀ k, k < 35 → m + 1 ≤ k →
      collectedAfter snap (k + 1) = collectedAfter snap k)
    (hcount : 5 < (collectedAfter snap (m + 1)).length)
    (hbound : m + 4 ≤ 35)
    (hnob : ∀ k, k ≤ m → 1 ≤ k → breakAtB snap k = false) :
    carouselRun snap = m + 4 := by
  have hconst : ∀ k, m + 1 ≤ k → k ≤ 35 →
      collectedAfter snap k = collectedAfter snap (m + 1) := by
    intro k
    induction k with
    | zero => omega
    | succ n ihn =>
      intro hk1 hk2
      rcases Nat.lt_or_ge (m + 1) (n + 1) with h | h
      · have hn : m + 1 ≤ n := by omega
        rw [hstop n (by omega) hn]
        exact ihn hn (by omega)
      · have : n + 1 = m + 1 := by omega
        rw [this]
  have hfix : ∀ k, k < 35 → m + 1 ≤ k →
      nikeStepImages (collectedAfter snap (m + 1)) (snap k) =
        collectedAfter snap (m + 1) := by
    intro k hk hmk
    have h1 : collectedAfter snap k = collectedAfter snap (m + 1) :=
      hconst k hmk (by omega)
    have h2 : collectedAfter snap (k + 1) = collectedAfter snap k :=
      hstop k hk hmk
    calc nikeStepImages (collectedAfter snap (m + 1)) (snap k)
        = nikeStepImages (collectedAfter snap k) (snap k) := by rw [h1]
      _ = collectedAfter snap (k + 1) := rfl
      _ = collectedAfter snap (m + 1) := by rw [h2, h1]
  rw [carouselGo_resume snap m (by omega) hnob]
  have hm : 35 - m = (35 - (m + 1)) + 1 := by omega
  rw [hm]
  simp only [carouselGo]
  show (if 5 < (collectedAfter snap (m + 1)).length ∧
        3 ≤ (if (collectedAfter snap (m + 1)).length =
            (collectedAfter snap m).length then stableAfter snap m + 1 else 0)
      then m + 1
      else carouselGo snap (35 - (m + 1)) (m + 1) (collectedAfter snap (m + 1))
        (if (collectedAfter snap (m + 1)).length =
            (collectedAfter snap m).length then stableAfter snap m + 1 else 0))
      = m + 4
  rw [if_neg (Nat.ne_of_gt hgrow)]
  rw [if_neg (fun h => absurd h.2 (by omega))]
  rw [carouselGo_stall snap (collectedAfter snap (m + 1)) hcount
    (35 - (m + 1)) (m + 1) 0 (by omega) hfix (by omega) (by omega)]

/-- C3 witness: the amended theorem applied to a concrete snapshot
sequence (six images appear at iteration 1, nothing afterwards): the
loop stops exactly at iteration 0+4 = 4. -/
theorem carousel_stop_amended_witness : carouselRun carouselWitnessSnap = 0 + 4 :=
  carousel_stop_amended carouselWitnessSnap 0 (by decide) (by decide)
    (by decide) (by decide) (by decide)

/-- C6 (code bug): on a Uniqlo product page with a colour-picker
container but zero valid colour candidates, exactly one record is
emitted and its color_name is absent — but its color_code is NOT
absent.  product_spider.py line 330 computes
color_code = variant_id.split('-COL')[-1], and for a variant id with
no "-COL" suffix Python's split returns the whole id, so the record
carries the full base product id ("E473635-000") as its colour code,
contradicting the claim (and the field's documented meaning of a
brand colour code such as "69"). -/
theorem uniqlo_no_color_candidates_code_bug :
    uniqloParsePage uniqloNoColorPage = ([], [uniqloNoColorRecord], []) ∧
    uniqloNoColorRecord.color_name = none ∧
    uniqloNoColorRecord.color_code = some "E473635-000".data := by decide

/-- C7 counterexample: in the M&S extractor a page whose name and
price are both empty after every fallback selector records NO
extraction failure: parse_product emits one record with None name and
None price, adds its id to successful_products, and failed_products
stays empty — the claim's "failure recorded in failed_products keyed
by a descriptive message" fails for this extractor. -/
theorem ms_missing_fields_no_failure_counterexample :
    msParseProduct msAllEmptyPage = ([msAllEmptyRecord], [], ["P22567531".data]) ∧
    msAllEmptyRecord.name = none ∧ msAllEmptyRecord.price = none := by decide

/-- C7 amended: in the Uniqlo extractor a variant whose name or price
is empty after all fallbacks yields no record and exactly one
failed_products entry keyed by the descriptive ValueError message, and
parse_product_variant returns normally (the failure is absorbed at the
variant boundary); the M&S extractor, by contrast, never appends to
failed_products on any parse_product path — it emits a record with
None fields instead. -/
theorem missing_fields_failure_amended (vid : Str) (cn : Option Str)
    (page : UniqloPage)
    (h : (truthy page.title && truthy (pyOr page.priceLimited
      (pyOr page.priceDualOriginal page.priceOriginal))) = false) :
    uniqloParseVariant vid cn page = ([], [(uniqloMissingMsg, vid)]) ∧
    (∀ p : MSPage, (msParseProduct p).2.1 = []) := by
  constructor
  · simp only [uniqloParseVariant]
    rw [if_neg (by rw [h]; exact Bool.false_ne_true)]
  · intro p
    simp only [msParseProduct]
    repeat' split
    all_goals rfl

/-- C7 witness: the amended theorem applied to a concrete Uniqlo page
with no extractable name or price. -/
theorem missing_fields_failure_amended_witness :
    uniqloParseVariant "E400000-000".data none
      { url := "https://www.uniqlo.com/in/products/E400000-000".data
        chips := []
        title := none
        priceLimited := none
        priceDualOriginal := none
        priceOriginal := none
        mainImages := [] }
      = ([], [(uniqloMissingMsg, "E400000-000".data)]) ∧
    (∀ p : MSPage, (msParseProduct p).2.1 = []) :=
  missing_fields_failure_amended "E400000-000".data none _ (by decide)

theorem mem_patFold {pat : Str → Bool} :
    ∀ {urls : List Str} {r : SeedRequest},
      r ∈ urls.foldr (fun v acc =>
          if pat v then SeedRequest.productReq v :: acc else acc) [] →
      ∃ v, v ∈ urls ∧ pat v = true ∧ r = SeedRequest.productReq v := by
  intro urls
  induction urls with
  | nil => intro r h; simp at h
  | cons a t ih =>
    intro r h
    simp only [List.foldr_cons] at h
    split at h
    · rcases List.mem_cons.mp h with rfl | h2
      · exact ⟨a, List.mem_cons_self a t, by assumption, rfl⟩
      · obtain ⟨v, hv, hp, hr⟩ := ih h2
        exact ⟨v, List.mem_cons_of_mem _ hv, hp, hr⟩
    · obtain ⟨v, hv, hp, hr⟩ := ih h
      exact ⟨v, List.mem_cons_of_mem _ hv, hp, hr⟩

/-- C8 counterexample: in the Uniqlo extractor a sitemap URL that
fails the product pattern is NOT silently skipped — parse issues a
category-page request for it (product_spider.py lines 172-177). -/
theorem uniqlo_sitemap_not_skipped_counterexample :
    uniqloSitemapParse ["https://www.uniqlo.com/in/feature/sale".data]
      = [SeedRequest.categoryReq
          "https://www.uniqlo.com/in/feature/sale".data] := by decide

/-- C8 amended: in the Nike, M&S and Westside extractors a sitemap URL
failing the product pattern is silently skipped (no request of any
kind is issued for it, and seed discovery records no errors); in the
Uniqlo extractor such a URL is not skipped — it is issued as a
category-page request instead (though no direct product request is
made for it). -/
theorem sitemap_skip_amended (urls : List Str) (u : Str)
    (h1 : nikeProductPat u = false) (h2 : msProductPat u = false)
    (h3 : westsideProductPat u = false) (h4 : uniqloProductPat u = false) :
    SeedRequest.productReq u ∉ nikeSitemapParse urls ∧
    SeedRequest.categoryReq u ∉ nikeSitemapParse urls ∧
    SeedRequest.productReq u ∉ msSitemapParse urls ∧
    SeedRequest.categoryReq u ∉ msSitemapParse urls ∧
    SeedRequest.productReq u ∉ westsideSitemapParse urls ∧
    SeedRequest.categoryReq u ∉ westsideSitemapParse urls ∧
    SeedRequest.productReq u ∉ uniqloSitemapParse urls ∧
    (u ∈ urls → SeedRequest.categoryReq u ∈ uniqloSitemapParse urls) := by
  refine ⟨?_, ?_, ?_, ?_, ?_, ?_, ?_, ?_⟩
  · intro h
    obtain ⟨v, _, hp, he⟩ := @mem_patFold nikeProductPat _ _ h
    cases he
    rw [h1] at hp
    cases hp
  · intro h
    obtain ⟨v, _, hp, he⟩ := @mem_patFold nikeProductPat _ _ h
    cases he
  · intro h
    obtain ⟨v, _, hp, he⟩ := @mem_patFold msProductPat _ _ h
    cases he
    rw [h2] at hp
    cases hp
  · intro h
    obtain ⟨v, _, hp, he⟩ := @mem_patFold msProductPat _ _ h
    cases he
  · intro h
    obtain ⟨v, _, hp, he⟩ := @mem_patFold westsideProductPat _ _ h
    cases he
    rw [h3] at hp
    cases hp
  · intro h
    obtain ⟨v, _, hp, he⟩ := @mem_patFold westsideProductPat _ _ h
    cases he
  · intro h
    rw [uniqloSitemapParse, List.mem_map] at h
    obtain ⟨v, _, hv⟩ := h
    by_cases hp : uniqloProductPat v
    · rw [if_pos hp] at hv
      cases hv
      rw [h4] at hp
      cases hp
    · rw [if_neg hp] at hv
      cases hv
  · intro hu
    rw [uniqloSitemapParse, List.mem_map]
    exact ⟨u, hu, by rw [if_neg (by rw [h4]; exact Bool.false_ne_true)]⟩

/-- C8 witness: the amended theorem applied to a one-URL sitemap whose
URL fails every site's product pattern. -/
theorem sitemap_skip_amended_witness :
    SeedRequest.productReq "https://example.com/help".data
        ∉ nikeSitemapParse ["https://example.com/help".data] ∧
    SeedRequest.categoryReq "https://example.com/help".data
        ∉ nikeSitemapParse ["https://example.com/help".data] ∧
    SeedRequest.productReq "https://example.com/help".data
        ∉ msSitemapParse ["https://example.com/help".data] ∧
    SeedRequest.categoryReq "https://example.com/help".data
        ∉ msSitemapParse ["https://example.com/help".data] ∧
    SeedRequest.productReq "https://example.com/help".data
        ∉ westsideSitemapParse ["https://example.com/help".data] ∧
    SeedRequest.categoryReq "https://example.com/help".data
        ∉ westsideSitemapParse ["https://example.com/help".data] ∧
    SeedRequest.productReq "https://example.com/help".data
        ∉ uniqloSitemapParse ["https://example.com/help".data] ∧
    ("https://example.com/help".data ∈ ["https://example.com/help".data] →
      SeedRequest.categoryReq "https://example.com/help".data
        ∈ uniqloSitemapParse ["https://example.com/help".data]) :=
  sitemap_skip_amended ["https://example.com/help".data]
    "https://example.com/help".data (by decide) (by decide) (by decide) (by decide)

theorem startsL_append_self : ∀ (pat t : Str), startsL pat (pat ++ t) = true := by
  intro pat t
  induction pat with
  | nil => rfl
  | cons p ps ih => simp [startsL, ih]

theorem endsL_append (suf b : Str) : endsL suf (b ++ suf) = true := by
  unfold endsL
  rw [List.reverse_append]
  exact startsL_append_self _ _

theorem noQ_takeUntilChar (s : Str) : '?' ∉ takeUntilChar '?' s := by
  intro h
  have := List.mem_takeWhile_imp h
  simp at this

theorem queryStrippedWithSuffix_of {suf b : Str} (hb : '?' ∉ b) :
    queryStrippedWithSuffix suf (b ++ suf) = true := by
  unfold queryStrippedWithSuffix
  rw [endsL_append]
  have hlen : (b ++ suf).length - suf.length = b.length := by
    rw [List.length_append]; omega
  rw [hlen, List.take_left]
  simp only [Bool.true_and, List.all_eq_true]
  intro a ha
  simp only [decide_eq_true_eq]
  rintro rfl
  exact hb ha

theorem take_sub_of_append (b suf : Str) :
    (b ++ suf).take ((b ++ suf).length - suf.length) = b := by
  have hlen : (b ++ suf).length - suf.length = b.length := by
    rw [List.length_append]; omega
  rw [hlen, List.take_left]

theorem mem_ite_or {c : Prop} [Decidable c] {A B : List Str} {u : Str}
    (h : u ∈ (if c then A else B)) : u ∈ A ∨ u ∈ B := by
  split at h
  · exact Or.inl h
  · exact Or.inr h

theorem mem_uniqloImageUrls {cc : Option Str} {base : Str} {imgs : List Str} :
    ∀ u ∈ uniqloImageUrls cc base imgs,
      ∃ b, u = b ++ "?width=750".data ∧ '?' ∉ b := by
  intro u hu
  unfold uniqloImageUrls at hu
  rw [mem_sortStrs] at hu
  dsimp only at hu
  rcases mem_ite_or hu with hu | hu
  · refine foldl_mem_preserve _
      (fun v => ∃ b, v = b ++ "?width=750".data ∧ '?' ∉ b) ?_ imgs [] (by simp) u hu
    intro acc x v hv
    split at hv
    · rcases mem_insertOnce.mp hv with h | rfl
      · exact Or.inl h
      · exact Or.inr ⟨takeUntilChar '?' x, rfl, noQ_takeUntilChar x⟩
    · exact Or.inl hv
  · rcases mem_ite_or hu with hu | hu
    · refine foldl_mem_preserve _
        (fun v => ∃ b, v = b ++ "?width=750".data ∧ '?' ∉ b) ?_ imgs [] (by simp) u hu
      intro acc x v hv
      split at hv
      · rcases mem_insertOnce.mp hv with h | rfl
        · exact Or.inl h
        · exact Or.inr ⟨takeUntilChar '?' x, rfl, noQ_takeUntilChar x⟩
      · exact Or.inl hv
    · simp at hu

theorem noQ_nikeProtoFix {b : Str} (hb : '?' ∉ b) : '?' ∉ nikeProtoFix b := by
  unfold nikeProtoFix
  split
  · exact hb
  · split
    · intro h
      rcases List.mem_append.mp h with h1 | h1
      · exact absurd h1 (by decide)
      · exact hb h1
    · intro h
      rcases List.mem_append.mp h with h1 | h1
      · exact absurd h1 (by decide)
      · exact hb h1

theorem mem_nikeProcessImages {imgs : List Str} :
    ∀ u ∈ nikeProcessImages imgs,
      ∃ b, u = b ++ "?width=1728&height=1728".data ∧ '?' ∉ b := by
  intro u hu
  unfold nikeProcessImages at hu
  rw [mem_sortStrs] at hu
  refine foldl_mem_preserve _
    (fun v => ∃ b, v = b ++ "?width=1728&height=1728".data ∧ '?' ∉ b)
    ?_ _ [] (by simp) u hu
  intro acc x v hv
  split at hv
  · rcases mem_insertOnce.mp hv with h | rfl
    · exact Or.inl h
    · exact Or.inr ⟨nikeProtoFix (takeUntilChar '?' x), rfl,
        noQ_nikeProtoFix (noQ_takeUntilChar x)⟩
  · exact Or.inl hv

theorem mem_westsideGalleryPass {g f : List Str} :
    ∀ u ∈ westsideGalleryPass g f,
      ∃ b, u = b ++ wsSuffix ∧ '?' ∉ b ∧ swatchPat b = false := by
  intro u hu
  unfold westsideGalleryPass at hu
  refine foldl_mem_preserve _
    (fun v => ∃ b, v = b ++ wsSuffix ∧ '?' ∉ b ∧ swatchPat b = false)
    ?_ _ [] (by simp) u hu
  intro acc x v hv
  split at hv
  · dsimp only at hv
    split at hv
    · rename_i hsw
      rcases mem_insertOnce.mp hv with h | rfl
      · exact Or.inl h
      · refine Or.inr ⟨takeUntilChar '?' (wsProtoFix x), rfl,
          noQ_takeUntilChar _, ?_⟩
        simpa using hsw
    · exact Or.inl hv
  · exact Or.inl hv

theorem mem_westsideJsonPass {j : List Str} :
    ∀ u ∈ westsideJsonPass j, ∃ b, u = b ++ wsSuffix := by
  intro u hu
  unfold westsideJsonPass at hu
  refine foldl_mem_preserve _
    (fun v => ∃ b, v = b ++ wsSuffix) ?_ _ [] (by simp) u hu
  intro acc x v hv
  split at hv
  · rcases mem_insertOnce.mp hv with h | rfl
    · exact Or.inl h
    · exact Or.inr ⟨wsProtoFix x, rfl⟩
  · exact Or.inl hv

theorem mem_westsideImageUrls {g f j : List Str} :
    ∀ u ∈ westsideImageUrls g f j, ∃ b, u = b ++ wsSuffix := by
  intro u hu
  unfold westsideImageUrls at hu
  rw [mem_sortStrs] at hu
  split at hu
  · exact mem_westsideJsonPass u hu
  · obtain ⟨b, hb, _, _⟩ := mem_westsideGalleryPass u hu
    exact ⟨b, hb⟩

/-- C9 counterexample: in the Westside extractor the JSON-LD fallback
branch does NOT strip the original query string: a structured-data
image URL with a query produces an emitted URL of the form
"...jpg?alt=77?v=1&width=1200", whose part before the fixed suffix
still contains a '?'. -/
theorem westside_jsonld_query_counterexample :
    westsideImageUrls [] [] [wsQueryJsonUrl]
      = [("https:".data ++ wsQueryJsonUrl) ++ wsSuffix] ∧
    queryStrippedWithSuffix wsSuffix
      (("https:".data ++ wsQueryJsonUrl) ++ wsSuffix) = false ∧
    endsL wsSuffix (("https:".data ++ wsQueryJsonUrl) ++ wsSuffix) = true := by
  refine ⟨by decide, by decide, by decide⟩

/-- C9 amended: every URL emitted by the Uniqlo and Nike image
pipelines is its query-stripped base followed by the site's fixed
high-resolution suffix ("?width=750" resp. "?width=1728&height=1728");
in the Westside extractor every emitted URL ends with the fixed suffix
"?v=1&width=1200", and is additionally query-stripped whenever the
main-gallery pass produced at least one image (the JSON-LD fallback,
used only when the gallery pass is empty, keeps the original query
string). -/
theorem image_query_suffix_amended :
    (∀ (cc : Option Str) (base : Str) (imgs : List Str),
      ∀ u ∈ uniqloImageUrls cc base imgs,
        queryStrippedWithSuffix "?width=750".data u = true) ∧
    (∀ imgs : List Str, ∀ u ∈ nikeProcessImages imgs,
      queryStrippedWithSuffix "?width=1728&height=1728".data u = true) ∧
    (∀ g f j : List Str, ∀ u ∈ westsideImageUrls g f j,
      endsL wsSuffix u = true) ∧
    (∀ g f j : List Str, westsideGalleryPass g f ≠ [] →
      ∀ u ∈ westsideImageUrls g f j,
        queryStrippedWithSuffix wsSuffix u = true) := by
  refine ⟨?_, ?_, ?_, ?_⟩
  · intro cc base imgs u hu
    obtain ⟨b, rfl, hq⟩ := mem_uniqloImageUrls u hu
    exact queryStrippedWithSuffix_of hq
  · intro imgs u hu
    obtain ⟨b, rfl, hq⟩ := mem_nikeProcessImages u hu
    exact queryStrippedWithSuffix_of hq
  · intro g f j u hu
    obtain ⟨b, rfl⟩ := mem_westsideImageUrls u hu
    exact endsL_append _ _
  · intro g f j hne u hu
    unfold westsideImageUrls at hu
    rw [mem_sortStrs, if_neg hne] at hu
    obtain ⟨b, rfl, hq, _⟩ := mem_westsideGalleryPass u hu
    exact queryStrippedWithSuffix_of hq

/-- C9 witness: the amended theorem applied to one concrete image per
pipeline. -/
theorem image_query_suffix_amended_witness :
    queryStrippedWithSuffix "?width=750".data
      "https://image.uniqlo.com/goods_69.jpg?width=750".data = true ∧
    queryStrippedWithSuffix "?width=1728&height=1728".data
      "https://static.nike.com/im/air.png?width=1728&height=1728".data = true ∧
    endsL wsSuffix
      ("https://cdn.shopify.com/s/files/img300912345.jpg".data ++ wsSuffix)
      = true ∧
    queryStrippedWithSuffix wsSuffix
      ("https://cdn.shopify.com/s/files/img300912345.jpg".data ++ wsSuffix)
      = true :=
  ⟨image_query_suffix_amended.1 none []
      ["https://image.uniqlo.com/goods_69.jpg?x=1".data] _ (by decide),
   image_query_suffix_amended.2.1
      ["https://static.nike.com/im/air.png?q=5".data] _ (by decide),
   image_query_suffix_amended.2.2.1
      ["//cdn.shopify.com/s/files/img300912345.jpg".data] [] [] _ (by decide),
   image_query_suffix_amended.2.2.2
      ["//cdn.shopify.com/s/files/img300912345.jpg".data] [] [] (by decide)
      _ (by decide)⟩

/-- C10 counterexample: a gallery image URL whose query-stripped form
matches the swatch-filename pattern IS excluded by the gallery pass,
but when the gallery pass therefore comes up empty, the unfiltered
JSON-LD fallback re-admits the very same URL, so it appears in the
emitted image_urls after all — the claim fails for such pages. -/
theorem westside_swatch_not_excluded_counterexample :
    westsideImageUrls [wsSwatchUrl] [] [wsSwatchUrl]
      = [("https:".data ++ wsSwatchUrl) ++ wsSuffix] ∧
    wsSwatchUrl ∈ [wsSwatchUrl] ++ ([] : List Str) ∧
    swatchPat (takeUntilChar '?' (wsProtoFix wsSwatchUrl)) = true ∧
    (takeUntilChar '?' (wsProtoFix wsSwatchUrl)) ++ wsSuffix
      ∈ westsideImageUrls [wsSwatchUrl] [] [wsSwatchUrl] := by
  refine ⟨by decide, by decide, by decide, by decide⟩

/-- C10 amended: whenever the main-gallery pass yields at least one
image (so the JSON-LD fallback is not consulted), no URL in the
emitted image_urls has a query-stripped form matching the
swatch-filename regex `\d{3}_\d+_\d+copy` — the gallery pass filters
every such candidate out. -/
theorem westside_swatch_excluded_amended (g f j : List Str)
    (hne : westsideGalleryPass g f ≠ []) :
    ∀ u ∈ westsideImageUrls g f j,
      swatchPat (u.take (u.length - wsSuffix.length)) = false := by
  intro u hu
  unfold westsideImageUrls at hu
  rw [mem_sortStrs, if_neg hne] at hu
  obtain ⟨b, rfl, _, hsw⟩ := mem_westsideGalleryPass u hu
  rw [take_sub_of_append]
  exact hsw

/-- C10 witness: the amended theorem applied to a one-image gallery. -/
theorem westside_swatch_excluded_amended_witness :
    swatchPat
      ((("https://cdn.shopify.com/s/files/img300912345.jpg".data ++ wsSuffix).take
        (("https://cdn.shopify.com/s/files/img300912345.jpg".data
          ++ wsSuffix).length - wsSuffix.length))) = false :=
  westside_swatch_excluded_amended
    ["//cdn.shopify.com/s/files/img300912345.jpg".data] [] [] (by decide)
    _ (by decide)
